import Mathlib

/-!
# Data Scout (`scan.py`) — shallow embedding and verification

This file embeds the Data Scout briefing pipeline (`src/scan.py`) in Lean:
the MD5-based item identifier, the seen-state store, the RSS feed fetcher
with its backfill policy, the CKAN dataset fetcher, the Gemini relevance
filter with its fallback and index-merge logic, the page-builder section
partitioning, and the order of effects in `main`.  External services
(HTTP responses, the feed parser, the Gemini model) enter as explicit
inputs; everything the script computes from them is translated directly.
-/

set_option maxRecDepth 100000

namespace DataScout

/-! ## MD5 (`hashlib.md5`), on byte lists, with 32-bit words as `Nat` mod 2^32 -/

/-- Reduce to a 32-bit word. -/
def u32 (x : Nat) : Nat := x % 4294967296

/-- Rotate a 32-bit word left by `c` bits. -/
def leftrotate (x c : Nat) : Nat := u32 ((x <<< c) ||| (x >>> (32 - c)))

/-- Per-round left-rotation amounts. -/
def md5S : List Nat :=
  [7, 12, 17, 22, 7, 12, 17, 22, 7, 12, 17, 22, 7, 12, 17, 22,
   5, 9, 14, 20, 5, 9, 14, 20, 5, 9, 14, 20, 5, 9, 14, 20,
   4, 11, 16, 23, 4, 11, 16, 23, 4, 11, 16, 23, 4, 11, 16, 23,
   6, 10, 15, 21, 6, 10, 15, 21, 6, 10, 15, 21, 6, 10, 15, 21]

/-- Round constants: `⌊|sin (i+1)| · 2^32⌋`. -/
def md5K : List Nat :=
  [3614090360, 3905402710, 606105819, 3250441966,
   4118548399, 1200080426, 2821735955, 4249261313,
   1770035416, 2336552879, 4294925233, 2304563134,
   1804603682, 4254626195, 2792965006, 1236535329,
   4129170786, 3225465664, 643717713, 3921069994,
   3593408605, 38016083, 3634488961, 3889429448,
   568446438, 3275163606, 4107603335, 1163531501,
   2850285829, 4243563512, 1735328473, 2368359562,
   4294588738, 2272392833, 1839030562, 4259657740,
   2763975236, 1272893353, 4139469664, 3200236656,
   681279174, 3936430074, 3572445317, 76029189,
   3654602809, 3873151461, 530742520, 3299628645,
   4096336452, 1126891415, 2878612391, 4237533241,
   1700485571, 2399980690, 4293915773, 2240044497,
   1873313359, 4264355552, 2734768916, 1309151649,
   4149444226, 3174756917, 718787259, 3951481745]

/-- The round mixing function (bitwise complement is xor with `2^32 - 1`). -/
def md5F (i b c d : Nat) : Nat :=
  if i < 16 then (b &&& c) ||| ((b ^^^ 4294967295) &&& d)
  else if i < 32 then (d &&& b) ||| ((d ^^^ 4294967295) &&& c)
  else if i < 48 then b ^^^ c ^^^ d
  else c ^^^ (b ||| (d ^^^ 4294967295))

/-- Message-word index used in round `i`. -/
def md5g (i : Nat) : Nat :=
  if i < 16 then i
  else if i < 32 then (5 * i + 1) % 16
  else if i < 48 then (3 * i + 5) % 16
  else (7 * i) % 16

/-- Running MD5 state: four 32-bit words. -/
structure MD5State where
  a : Nat
  b : Nat
  c : Nat
  d : Nat
deriving Repr, DecidableEq

/-- Initial MD5 state. -/
def md5Init : MD5State := ⟨0x67452301, 0xefcdab89, 0x98badcfe, 0x10325476⟩

/-- Little-endian 32-bit word `j` of a 64-byte chunk. -/
def leWord (chunk : List Nat) (j : Nat) : Nat :=
  chunk.getD (4 * j) 0 + 256 * chunk.getD (4 * j + 1) 0 +
    65536 * chunk.getD (4 * j + 2) 0 + 16777216 * chunk.getD (4 * j + 3) 0

/-- One MD5 round. -/
def md5Step (chunk : List Nat) (st : MD5State) (i : Nat) : MD5State :=
  let f := u32 (md5F i st.b st.c st.d + st.a + md5K.getD i 0 + leWord chunk (md5g i))
  ⟨st.d, u32 (st.b + leftrotate f (md5S.getD i 0)), st.b, st.c⟩

/-- Process one 64-byte chunk: 64 rounds, then add into the state. -/
def md5Chunk (st : MD5State) (chunk : List Nat) : MD5State :=
  let e := (List.range 64).foldl (md5Step chunk) st
  ⟨u32 (st.a + e.a), u32 (st.b + e.b), u32 (st.c + e.c), u32 (st.d + e.d)⟩

/-- The `k` low-order bytes of `n`, little-endian. -/
def natLEBytes (n k : Nat) : List Nat :=
  (List.range k).map (fun i => (n >>> (8 * i)) % 256)

/-- MD5 padding: a `0x80` byte, zeros to 56 mod 64, then the bit length as
a little-endian 64-bit integer. -/
def md5Pad (msg : List Nat) : List Nat :=
  msg ++ 128 :: List.replicate ((119 - msg.length % 64) % 64) 0 ++
    natLEBytes (8 * msg.length) 8

/-- Split a padded message into 64-byte chunks. -/
def md5Chunks (bytes : List Nat) : List (List Nat) :=
  (List.range (bytes.length / 64)).map (fun i => (bytes.drop (64 * i)).take 64)

/-- The 16-byte MD5 digest of a byte list. -/
def md5Bytes (msg : List Nat) : List Nat :=
  let st := (md5Chunks (md5Pad msg)).foldl md5Chunk md5Init
  natLEBytes st.a 4 ++ natLEBytes st.b 4 ++ natLEBytes st.c 4 ++ natLEBytes st.d 4

/-- Lowercase hex digit. -/
def hexChar (n : Nat) : Char := "0123456789abcdef".toList.getD n '0'

/-- Two hex digits of a byte. -/
def byteHex (b : Nat) : List Char := [hexChar (b / 16), hexChar (b % 16)]

/-- `hashlib.md5(...).hexdigest()`. -/
def md5Hex (msg : List Nat) : String :=
  String.mk ((md5Bytes msg).foldr (fun b acc => byteHex b ++ acc) [])

/-- UTF-8 bytes of a string (`str.encode()`); the byte list underlying
`String.toUTF8`. -/
def strBytes (s : String) : List Nat :=
  (s.data.flatMap String.utf8EncodeChar).map UInt8.toNat

/-- `item_id(title, link)`: the MD5 hex digest of `f"{title}|{link}"`
(`scan.py` lines 94–97). -/
def item_id (title link : String) : String :=
  md5Hex (strBytes (title ++ "|" ++ link))

/-! ## Data model

An `Item` is one feed entry or dataset record (spec §3).  The `pub_date`
field models the internal `_pub_date` key of the RSS fetcher (a UTC
timestamp, with `datetime.min` as 0); CKAN items never carry it, and the
fetcher deletes it before returning, both modelled as `none`. -/

structure Item where
  id : String
  title : String
  link : String
  source : String
  summary_raw : String
  is_canadian_data : Bool
  pub_date : Option Nat
deriving DecidableEq, Repr

/-! ## State store (`load_state` / `save_state`) -/

/-- The seen store: the JSON object mapping item id to ISO-8601 timestamp,
as an association list. -/
abbrev Seen := List (String × String)

/-- `iid in seen` — membership among the keys of the seen store. -/
def seenHas (seen : Seen) (iid : String) : Bool :=
  seen.any (fun kv => kv.1 == iid)

/-- `save_state` (`scan.py` lines 86–91): keep the entries whose timestamp
string compares strictly greater than `cutoff`, the ISO-8601 rendering of
`now − 14 days` (Python compares the ISO strings; for the uniform
timestamps the script writes, string order is chronological order). -/
def save_state (cutoff : String) (seen : Seen) : Seen :=
  seen.filter (fun kv => decide (cutoff < kv.2))

/-! ## Feed fetcher (`fetch_rss_feeds`) -/

/-- The `RSS_FEEDS` configuration table. -/
def RSS_FEEDS : List (String × String) :=
  [("The Pudding", "https://pudding.cool/feed/index.xml"),
   ("ProPublica", "https://www.propublica.org/feeds/propublica/main"),
   ("ICIJ", "https://www.icij.org/feed/"),
   ("OCCRP", "https://www.occrp.org/en/feed"),
   ("NYT Upshot", "https://rss.nytimes.com/services/xml/rss/nyt/Upshot.xml"),
   ("Nieman Lab", "https://feeds.feedburner.com/NiemanLab"),
   ("Our World in Data", "https://ourworldindata.org/atom.xml"),
   ("BBC More or Less", "https://www.bbc.co.uk/programmes/p02nrss1/episodes/downloads.rss")]

/-- The `CANADIAN_RSS_FEEDS` configuration table. -/
def CANADIAN_RSS_FEEDS : List (String × String) :=
  [("Globe and Mail",
    "https://www.theglobeandmail.com/arc/outboundfeeds/rss/category/business/"),
   ("CBC Business", "https://www.cbc.ca/webfeed/rss/rss-business")]

/-- Minimum number of RSS items to always include. -/
def MIN_RSS_ITEMS : Nat := 10

/-- One parsed feed entry, as `feedparser` delivers it.  `summaryText` is
the text `BeautifulSoup(...).get_text()` extracts from the entry's
summary/description HTML (both external libraries, modelled at their
interface); `pub_date` is the timestamp `parse_feed_date` recovers, if
any. -/
structure FeedEntry where
  title : String
  link : String
  summaryText : String
  pub_date : Option Nat
deriving DecidableEq, Repr

/-- The network and parser, as an input: the parsed entry list each feed
URL yields, or the exception `requests.get`/parsing raises. -/
abbrev FetchRss := String → Except String (List FeedEntry)

/-- `str.strip()`: drop whitespace from both ends.  (A structural model of
`String.trim`, which itself is defined by well-founded recursion on byte
positions.) -/
def pyStrip (s : String) : String :=
  String.mk
    (((s.data.dropWhile Char.isWhitespace).reverse.dropWhile Char.isWhitespace).reverse)

/-- The body of the per-entry loop up to dedup: strip title and link, skip
the entry if either is empty, and build the item dict (lines 128–150). -/
def entryItem (source_name : String) (e : FeedEntry) : Option Item :=
  let title := pyStrip e.title
  let link := pyStrip e.link
  if title = "" || link = "" then none
  else some
    { id := item_id title link
      title := title
      link := link
      source := source_name
      summary_raw := e.summaryText.take 500
      is_canadian_data := CANADIAN_RSS_FEEDS.any (fun p => p.1 == source_name)
      pub_date := e.pub_date }

/-- One iteration of the per-entry loop: skip seen ids, then append the
item to `recent_items` when it is undated or within the window, else to
`backfill_items`. -/
def feedStep (cutoff : Nat) (seen : Seen) (source_name : String)
    (acc : List Item × List Item) (e : FeedEntry) : List Item × List Item :=
  match entryItem source_name e with
  | none => acc
  | some it =>
    if seenHas seen it.id then acc
    else
      match it.pub_date with
      | none => (acc.1 ++ [it], acc.2)
      | some d =>
        if cutoff ≤ d then (acc.1 ++ [it], acc.2) else (acc.1, acc.2 ++ [it])

/-- One feed's contribution to `(recent_items, backfill_items)`: the first
20 entries, skipping seen ids, split by the lookback window (an entry with
no date counts as within the window). -/
def feedClassify (cutoff : Nat) (seen : Seen) (source_name : String)
    (entries : List FeedEntry) : List Item × List Item :=
  (entries.take 20).foldl (feedStep cutoff seen source_name) ([], [])

/-- `(recent_items, backfill_items)` accumulated over all configured feeds
(`{**RSS_FEEDS, **CANADIAN_RSS_FEEDS}`); a feed whose fetch raises
contributes nothing. -/
def rssFeedStep (fetchR : FetchRss) (cutoff : Nat) (seen : Seen)
    (acc : List Item × List Item) (src : String × String) : List Item × List Item :=
  match fetchR src.2 with
  | .error _ => acc
  | .ok entries =>
    let rb := feedClassify cutoff seen src.1 entries
    (acc.1 ++ rb.1, acc.2 ++ rb.2)

def rssClassify (fetchR : FetchRss) (cutoff : Nat) (seen : Seen) :
    List Item × List Item :=
  (RSS_FEEDS ++ CANADIAN_RSS_FEEDS).foldl (rssFeedStep fetchR cutoff seen) ([], [])

/-- The backfill sort key: `x["_pub_date"] or datetime.min`, with
`datetime.min` as 0. -/
def backfillKey (it : Item) : Nat := it.pub_date.getD 0

/-- The order of `backfill_items.sort(key=..., reverse=True)`: newest
first.  Python's sort is stable, as is `insertionSort` below. -/
def newerFirst (a b : Item) : Prop := backfillKey b ≤ backfillKey a

instance : DecidableRel newerFirst := fun _ _ => Nat.decLe _ _

instance : IsTotal Item newerFirst := ⟨fun a b => Nat.le_total (backfillKey b) (backfillKey a)⟩

instance : IsTrans Item newerFirst := ⟨fun _ _ _ h1 h2 => Nat.le_trans h2 h1⟩

/-- `recent_items` after the backfill step (lines 159–166): if fewer than
`MIN_RSS_ITEMS` items are within the window, extend with the most recent
out-of-window unseen items. -/
def fetch_rss_items (fetchR : FetchRss) (cutoff : Nat) (seen : Seen) : List Item :=
  let rb := rssClassify fetchR cutoff seen
  if rb.1.length < MIN_RSS_ITEMS then
    rb.1 ++ (rb.2.insertionSort newerFirst).take (MIN_RSS_ITEMS - rb.1.length)
  else rb.1

/-- `fetch_rss_feeds`: the backfilled list with the internal `_pub_date`
field popped. -/
def fetch_rss_feeds (fetchR : FetchRss) (cutoff : Nat) (seen : Seen) : List Item :=
  (fetch_rss_items fetchR cutoff seen).map (fun it => { it with pub_date := none })

/-! ## Dataset fetcher (`fetch_ckan_updates`) -/

/-- A CKAN text field: a plain string, or a bilingual `{en, fr}` object
(Canada Open Data).  A JSON `null` value and an absent key are conflated
as `none`. -/
inductive CkanText where
  | plain (s : String)
  | bilingual (en fr : Option String)
deriving DecidableEq, Repr

/-- A CKAN package as returned in `result.results` of the search API. -/
structure CkanPackage where
  name : Option String
  pkg_id : Option String
  title : Option CkanText
  excerpt : Option CkanText
  notes : Option CkanText
deriving DecidableEq, Repr

/-- One row of the `CKAN_APIS` configuration table. -/
structure CkanConfig where
  cfg_name : String
  search_url : String
  base_url : String
deriving DecidableEq, Repr

/-- The `CKAN_APIS` configuration table. -/
def CKAN_APIS : List CkanConfig :=
  [⟨"Toronto Open Data",
    "https://ckan0.cf.opendata.inter.prod-toronto.ca/api/3/action/package_search",
    "https://open.toronto.ca/dataset"⟩,
   ⟨"Canada Open Data",
    "https://open.canada.ca/data/api/3/action/package_search",
    "https://open.canada.ca/data/en/dataset"⟩]

/-- The catalog search, as an input: the package list the dated query at
each search URL yields, or the exception the request / `raise_for_status`
/ JSON decoding raises.  The cutoff only parametrizes the server-side
`fq` filter inside the query, so it is part of this input. -/
abbrev FetchCkan := String → Except String (List CkanPackage)

/-- The per-package body of `fetch_ckan_updates` (lines 194–217): resolve
the name, pick the English/French/bilingual title and excerpt, build the
canonical link, and mark the item as Canadian data. -/
def ckanItem (source_name base_url : String) (pkg : CkanPackage) : Item :=
  let name := pkg.name.getD (pkg.pkg_id.getD "")
  let title :=
    match pkg.title with
    | none => name
    | some (.plain s) => s
    | some (.bilingual en fr) => en.getD (fr.getD name)
  let link := base_url ++ "/" ++ name
  let excerpt :=
    match pkg.excerpt.getD (pkg.notes.getD (.plain "")) with
    | .plain s => s
    | .bilingual en _ => en.getD ""
  { id := item_id title link
    title := title
    link := link
    source := source_name
    summary_raw :=
      if excerpt = "" then "Dataset updated on " ++ source_name else excerpt.take 500
    is_canadian_data := true
    pub_date := none }

/-- One iteration of the per-package loop: skip seen ids, append the
item otherwise. -/
def ckanStep (source_name base_url : String) (seen : Seen)
    (acc : List Item) (pkg : CkanPackage) : List Item :=
  let it := ckanItem source_name base_url pkg
  if seenHas seen it.id then acc else acc ++ [it]

/-- One catalog's contribution: its packages folded through `ckanStep`, or
nothing when the query raises. -/
def ckanCatStep (fetchC : FetchCkan) (seen : Seen)
    (acc : List Item) (cfg : CkanConfig) : List Item :=
  match fetchC cfg.search_url with
  | .error _ => acc
  | .ok pkgs => pkgs.foldl (ckanStep cfg.cfg_name cfg.base_url seen) acc

/-- `fetch_ckan_updates`: over both catalogs, keep the unseen packages'
items in order; a catalog whose query raises contributes nothing. -/
def fetch_ckan_updates (fetchC : FetchCkan) (seen : Seen) : List Item :=
  CKAN_APIS.foldl (ckanCatStep fetchC seen) []

/-! ## Relevance filter (`filter_with_gemini`) -/

/-- One object of the JSON array the model returns.  Each field is
optional (`dict.get` yields `None` when absent).  Index values that are
not integers and malformed non-object elements are outside this model. -/
structure SEntry where
  index : Option Int
  summary : Option String
  why : Option String
  score : Option Int
  location : Option String
  category : Option String
deriving DecidableEq, Repr

/-- An item after scoring: the copied fetch-time item plus the five fields
the merge loop writes. -/
structure ScoredItem where
  base : Item
  summary : String
  why : String
  score : Int
  location : String
  category : String
deriving DecidableEq, Repr

/-- The fallback entry built for item `it` at position `i` in the
`except` branch (lines 281–285): neutral score 3, empty rationale. -/
def fallbackEntry (i : Nat) (it : Item) : SEntry :=
  { index := some (i : Int)
    summary := some (it.summary_raw.take 100)
    why := some ""
    score := some 3
    location := some (if it.is_canadian_data then "CANADA" else "WORLD")
    category := some "" }

/-- The fallback entry list: one `fallbackEntry` per enumerated item. -/
def fallbackScored (items : List Item) : List SEntry :=
  items.enum.map (fun p => fallbackEntry p.1 p.2)

/-- One step of the merge loop (lines 289–298): an entry with a missing or
out-of-range index yields nothing; otherwise `items[idx].copy()` is
extended with the entry's fields, each defaulted when absent. -/
def scoreEntry (items : List Item) (s : SEntry) : Option ScoredItem :=
  match s.index with
  | none => none
  | some idx =>
    if idx < 0 then none
    else
      match items.get? idx.toNat with
      | none => none
      | some item =>
        some
          { base := item
            summary := s.summary.getD (item.summary_raw.take 100)
            why := s.why.getD ""
            score := s.score.getD 3
            location :=
              s.location.getD (if item.is_canadian_data then "CANADA" else "WORLD")
            category := s.category.getD "" }

/-- `filter_with_gemini`: `response` is the parsed JSON array of the
model's reply, or `none` when the call raises or the reply is not JSON
(the `except` branch).  With no items there is no call and no output;
otherwise the returned (or fallback) entries are merged back by index. -/
def filter_with_gemini (response : Option (List SEntry)) (items : List Item) :
    List ScoredItem :=
  if items.isEmpty then []
  else
    let scored := match response with | some l => l | none => fallbackScored items
    scored.filterMap (scoreEntry items)

/-! ## Page builder (`build_html_page`, partitioning lines 318–331) -/

/-- `top_stories` before backfill: score ≥ 4 and not Canadian-sourced. -/
def topStoriesBase (scored : List ScoredItem) : List ScoredItem :=
  scored.filter (fun i => decide (4 ≤ i.score) && !i.base.is_canadian_data)

/-- The order of `sorted(..., key=lambda x: x["score"], reverse=True)` and
of `list.sort` with the same key: score descending, stable. -/
def higherScore (a b : ScoredItem) : Prop := b.score ≤ a.score

instance : DecidableRel higherScore := fun _ _ => Int.decLe _ _

instance : IsTotal ScoredItem higherScore := ⟨fun a b => Int.le_total b.score a.score⟩

instance : IsTrans ScoredItem higherScore := ⟨fun _ _ _ h1 h2 => Int.le_trans h2 h1⟩

/-- `top_stories` after the backfill of lines 320–325: when fewer than 2
qualify, extend with the best-scoring other non-Canadian items of score
≥ 3, up to 2 total. -/
def top_stories (scored : List ScoredItem) : List ScoredItem :=
  let t := topStoriesBase scored
  if t.length < 2 then
    let extras :=
      (scored.filter
        (fun i => decide (3 ≤ i.score) && !i.base.is_canadian_data &&
          !decide (i ∈ t))).insertionSort higherScore
    t ++ extras.take (2 - t.length)
  else t

/-- `canadian_data`: Canadian-sourced with score ≥ 3. -/
def canadian_data (scored : List ScoredItem) : List ScoredItem :=
  scored.filter (fun i => i.base.is_canadian_data && decide (3 ≤ i.score))

/-- `top_ids`: the id set of the (backfilled) top stories. -/
def top_ids (scored : List ScoredItem) : List String :=
  (top_stories scored).map (fun i => i.base.id)

/-- `worth_a_look`: score exactly 3, not Canadian-sourced, id not among
the top stories. -/
def worth_a_look (scored : List ScoredItem) : List ScoredItem :=
  scored.filter
    (fun i =>
      decide (i.score = 3) && !i.base.is_canadian_data &&
        !decide (i.base.id ∈ top_ids scored))

/-- The three rendered sections, each re-sorted by score descending
(lines 334–336); `top_ids` is taken before this sort, as in the source. -/
def page_sections (scored : List ScoredItem) :
    List ScoredItem × List ScoredItem × List ScoredItem :=
  ((top_stories scored).insertionSort higherScore,
   (canadian_data scored).insertionSort higherScore,
   (worth_a_look scored).insertionSort higherScore)

/-! ## Credential setup (`setup_gemini`) and the order of effects in `main` -/

/-- The error message of the `ValueError` raised on a missing credential. -/
def missingKeyMsg : String :=
  "Add your API key to gemini_api_key.txt or set GEMINI_API_KEY env var"

/-- The credential `setup_gemini` resolves (lines 62–76): the stripped key
file content when the file exists and does not hold the placeholder, else
the `GEMINI_API_KEY` environment variable; a falsy value (absent or the
empty string) at either stage counts as missing. -/
def resolved_api_key (keyFile envKey : Option String) : Option String :=
  let fromFile : Option String :=
    match keyFile with
    | none => none
    | some c =>
      let s := pyStrip c
      if s = "PASTE_YOUR_GEMINI_API_KEY_HERE" then none else some s
  let key : Option String :=
    match fromFile with
    | none => envKey
    | some s => if s = "" then envKey else some s
  match key with
  | none => none
  | some s => if s = "" then none else some s

/-- `setup_gemini`: raise `ValueError` when no credential resolves. -/
def setup_gemini (keyFile envKey : Option String) : Except String Unit :=
  match resolved_api_key keyFile envKey with
  | none => .error missingKeyMsg
  | some _ => .ok ()

/-- Observable effects of one run, in order. -/
inductive Event where
  | netRSS (url : String)
  | netCKAN (url : String)
  | geminiCall
  | fatalError (msg : String)
  | writePage
  | stateSaved
deriving DecidableEq, Repr

/-- Is the event a network request to a feed or catalog? -/
def Event.isNet : Event → Bool
  | .netRSS _ => true
  | .netCKAN _ => true
  | _ => false

/-- Is the event a fatal error report? -/
def Event.isFatal : Event → Bool
  | .fatalError _ => true
  | _ => false

/-- The whole environment one run of `main` observes. -/
structure World where
  keyFile : Option String
  envKey : Option String
  fetchR : FetchRss
  fetchC : FetchCkan
  seen0 : Seen
  cutoff : Nat

/-- The items `main` accumulates (`all_items = rss_items + ckan_items`). -/
def mainItems (w : World) : List Item :=
  fetch_rss_feeds w.fetchR w.cutoff w.seen0 ++ fetch_ckan_updates w.fetchC w.seen0

/-- The network requests the fetch phase issues: one per configured feed
URL, then one per catalog search URL, unconditionally. -/
def fetchEvents : List Event :=
  (RSS_FEEDS ++ CANADIAN_RSS_FEEDS).map (fun p => Event.netRSS p.2) ++
    CKAN_APIS.map (fun c => Event.netCKAN c.search_url)

/-- The event trace of `main` (lines 384–427): load state, fetch all
feeds and catalogs, then — only when new items exist — set up the Gemini
client (aborting the run on a missing credential, so that neither the
page write nor `save_state` happens), call Gemini, and build the page;
finally mark items seen and save state. -/
def mainTrace (w : World) : List Event :=
  fetchEvents ++
    (if (mainItems w).isEmpty then [Event.writePage, Event.stateSaved]
     else
       match setup_gemini w.keyFile w.envKey with
       | .error m => [Event.fatalError m]
       | .ok _ => [Event.geminiCall, Event.writePage, Event.stateSaved])

/-- The run reports a fatal error before it issues any network request. -/
def failsBeforeNet (t : List Event) : Bool :=
  (t.takeWhile (fun e => !e.isNet)).any Event.isFatal

/-! ## Shared lemmas -/

/-- The neutral scoring of an item: what the fallback path merges onto it. -/
def neutralScore (it : Item) : ScoredItem :=
  { base := it
    summary := it.summary_raw.take 100
    why := ""
    score := 3
    location := if it.is_canadian_data then "CANADA" else "WORLD"
    category := "" }

theorem scoreEntry_fallbackEntry (items : List Item) (i : Nat) (it : Item)
    (h : items.get? i = some it) :
    scoreEntry items (fallbackEntry i it) = some (neutralScore it) := by
  have hneg : ¬((i : Int) < 0) := by omega
  simp only [scoreEntry, fallbackEntry]
  rw [if_neg hneg, Int.toNat_natCast, h]
  simp [neutralScore]

theorem fallback_merge_eq :
    ∀ (suf pre : List Item),
      ((suf.enumFrom pre.length).map (fun p => fallbackEntry p.1 p.2)).filterMap
          (scoreEntry (pre ++ suf)) = suf.map neutralScore
  | [], _ => rfl
  | h :: t, pre => by
    have hget : (pre ++ h :: t).get? pre.length = some h := by
      rw [List.get?_append_right (Nat.le_refl _)]
      simp
    have ih := fallback_merge_eq t (pre ++ [h])
    rw [List.append_assoc] at ih
    simp only [List.length_append, List.length_cons, List.length_nil, Nat.add_zero] at ih
    simp only [List.enumFrom_cons, List.map_cons, List.filterMap_cons,
      scoreEntry_fallbackEntry _ _ _ hget, List.singleton_append, List.map_cons] at ih ⊢
    rw [ih]

/-! ## Claims -/

/-- C7: the item identifier is a deterministic function of (title, link):
computing the id twice for the same title and link yields the same
value. -/
theorem item_id_deterministic (t l t' l' : String) (ht : t = t') (hl : l = l') :
    item_id t l = item_id t' l' := by
  rw [ht, hl]

/-- Witness for C7, with the digest evaluated on a concrete input (it
matches `hashlib.md5(b"a|b").hexdigest()`). -/
theorem item_id_deterministic_witness :
    item_id "a" "b" = item_id "a" "b" ∧
      item_id "a" "b" = "d0726241020676b14aa6298ce6a18b21" :=
  ⟨item_id_deterministic "a" "b" "a" "b" rfl rfl, by decide⟩

/-- C4: after a save cycle, no persisted entry has a timestamp older than
the 14-day cutoff (indeed every persisted timestamp is strictly newer),
and every seen entry with a timestamp within the last 14 days (strictly
newer than the cutoff) is retained.  Timestamps are the ISO-8601 strings
the script stores; their string order is chronological order. -/
theorem save_state_prunes (cutoff : String) (seen : Seen) :
    (∀ kv ∈ save_state cutoff seen, cutoff < kv.2 ∧ ¬kv.2 < cutoff) ∧
      ∀ kv ∈ seen, cutoff < kv.2 → kv ∈ save_state cutoff seen := by
  constructor
  · intro kv hkv
    rw [save_state, List.mem_filter, decide_eq_true_eq] at hkv
    exact ⟨hkv.2, lt_asymm hkv.2⟩
  · intro kv hkv hlt
    rw [save_state, List.mem_filter, decide_eq_true_eq]
    exact ⟨hkv, hlt⟩

/-- Witness for C4 on a concrete store: a fresh entry survives and is
strictly newer than the cutoff; the proof instantiates
`save_state_prunes` at the saved store. -/
theorem save_state_prunes_witness :
    ("new", "2026-10-10T08:00:00+00:00") ∈
        save_state "2026-09-28T00:00:00+00:00"
          [("old", "2026-09-01T12:00:00+00:00"), ("new", "2026-10-10T08:00:00+00:00")] ∧
      ¬("2026-10-10T08:00:00+00:00" : String) < "2026-09-28T00:00:00+00:00" := by
  have h := save_state_prunes "2026-09-28T00:00:00+00:00"
    [("old", "2026-09-01T12:00:00+00:00"), ("new", "2026-10-10T08:00:00+00:00")]
  have hmem := h.2 ("new", "2026-10-10T08:00:00+00:00") (by decide)
    (by rw [String.lt_iff_toList_lt]; decide)
  exact ⟨hmem, (h.1 _ hmem).2⟩

/-- C3: if the ranking call raises or its reply is not JSON (the `none`
response), every input item appears in the scored output with the neutral
default score 3 and an empty rationale; the merge is total, so the
pipeline does not fail. -/
theorem gemini_fallback_scores_all (items : List Item) :
    filter_with_gemini none items = items.map neutralScore := by
  cases items with
  | nil => rfl
  | cons h t =>
    have := fallback_merge_eq (h :: t) []
    simpa [filter_with_gemini, fallbackScored, List.enum] using this

/-- Witness for C3 on two concrete items (one Canadian dataset, one feed
story): the fallback output is exactly their neutral scorings. -/
theorem gemini_fallback_scores_all_witness :
    filter_with_gemini none
        [{ id := "i1", title := "T1", link := "L1", source := "ProPublica",
           summary_raw := "s1", is_canadian_data := false, pub_date := none },
         { id := "i2", title := "T2", link := "L2", source := "Toronto Open Data",
           summary_raw := "s2", is_canadian_data := true, pub_date := none }] =
      [{ base := { id := "i1", title := "T1", link := "L1", source := "ProPublica",
                   summary_raw := "s1", is_canadian_data := false, pub_date := none },
         summary := "s1", why := "", score := 3, location := "WORLD", category := "" },
       { base := { id := "i2", title := "T2", link := "L2", source := "Toronto Open Data",
                   summary_raw := "s2", is_canadian_data := true, pub_date := none },
         summary := "s2", why := "", score := 3, location := "CANADA", category := "" }] := by
  rw [gemini_fallback_scores_all]
  decide

/-- C8: an entry of the ranking reply whose index is missing, negative, or
at least the number of input items is ignored by the merge: deleting it
from the reply leaves the scored output unchanged (and the merge is a
total function, so no out-of-bounds access occurs). -/
theorem gemini_merge_ignores_bad_index (items : List Item) (l1 l2 : List SEntry)
    (s : SEntry)
    (hbad : s.index = none ∨
      ∃ idx, s.index = some idx ∧ (idx < 0 ∨ (items.length : Int) ≤ idx)) :
    filter_with_gemini (some (l1 ++ s :: l2)) items =
      filter_with_gemini (some (l1 ++ l2)) items := by
  have hnone : scoreEntry items s = none := by
    rcases hbad with h | ⟨idx, hidx, hlt | hge⟩
    · simp [scoreEntry, h]
    · simp [scoreEntry, hidx, hlt]
    · have hn : ¬idx < 0 := by omega
      have hget : items[idx.toNat]? = none := List.getElem?_eq_none (by omega)
      simp [scoreEntry, hidx, hn, hget]
  by_cases hemp : items.isEmpty
  · simp [filter_with_gemini, hemp]
  · simp [filter_with_gemini, hemp, List.filterMap_append, List.filterMap_cons, hnone]

/-- Witness for C8: a reply entry with index 5 against a single input item
contributes nothing; the scored output equals the one for the empty
reply. -/
theorem gemini_merge_ignores_bad_index_witness :
    filter_with_gemini
        (some [{ index := some 5, summary := some "S", why := some "W",
                 score := some 4, location := some "WORLD", category := some "" }])
        [{ id := "i1", title := "T1", link := "L1", source := "ICIJ",
           summary_raw := "s1", is_canadian_data := false, pub_date := none }] =
      filter_with_gemini (some [])
        [{ id := "i1", title := "T1", link := "L1", source := "ICIJ",
           summary_raw := "s1", is_canadian_data := false, pub_date := none }] :=
  gemini_merge_ignores_bad_index _ [] []
    { index := some 5, summary := some "S", why := some "W", score := some 4,
      location := some "WORLD", category := some "" }
    (Or.inr ⟨5, rfl, Or.inr (by decide)⟩)

theorem scoreEntry_base_mem {items : List Item} {s : SEntry} {y : ScoredItem}
    (h : scoreEntry items s = some y) : y.base ∈ items := by
  unfold scoreEntry at h
  split at h
  · cases h
  · split at h
    · cases h
    · split at h
      · cases h
      · rename_i hget
        cases h
        simpa using List.get?_mem hget

/-- C10: merging scores onto an item only adds the scoring fields: every
scored output item carries, unchanged, the id, title, link, source, raw
summary, and provenance flag of an input item (its `base` is that input
item; the source copies the dict, so the input list itself is untouched). -/
theorem gemini_merge_preserves_item_fields (response : Option (List SEntry))
    (items : List Item) (y : ScoredItem)
    (hy : y ∈ filter_with_gemini response items) :
    ∃ it ∈ items, y.base = it ∧ y.base.id = it.id ∧ y.base.title = it.title ∧
      y.base.link = it.link ∧ y.base.source = it.source ∧
      y.base.summary_raw = it.summary_raw ∧
      y.base.is_canadian_data = it.is_canadian_data := by
  unfold filter_with_gemini at hy
  by_cases hemp : items.isEmpty
  · rw [if_pos hemp] at hy
    cases hy
  · rw [if_neg hemp] at hy
    rcases List.mem_filterMap.mp hy with ⟨s, _, hs⟩
    exact ⟨y.base, scoreEntry_base_mem hs, rfl, rfl, rfl, rfl, rfl, rfl, rfl⟩

/-- Witness for C10: at a concrete reply entry merged onto one item, the
scored item's fetch-time fields are those of the input item. -/
theorem gemini_merge_preserves_item_fields_witness :
    ∃ it ∈ [{ id := "i1", title := "T1", link := "L1", source := "ICIJ",
              summary_raw := "s1", is_canadian_data := false, pub_date := none : Item }],
      ({ base := { id := "i1", title := "T1", link := "L1", source := "ICIJ",
                   summary_raw := "s1", is_canadian_data := false, pub_date := none },
         summary := "S", why := "", score := 5, location := "WORLD",
         category := "" } : ScoredItem).base = it ∧
      ({ base := { id := "i1", title := "T1", link := "L1", source := "ICIJ",
                   summary_raw := "s1", is_canadian_data := false, pub_date := none },
         summary := "S", why := "", score := 5, location := "WORLD",
         category := "" } : ScoredItem).base.id = it.id ∧
      ({ base := { id := "i1", title := "T1", link := "L1", source := "ICIJ",
                   summary_raw := "s1", is_canadian_data := false, pub_date := none },
         summary := "S", why := "", score := 5, location := "WORLD",
         category := "" } : ScoredItem).base.title = it.title ∧
      ({ base := { id := "i1", title := "T1", link := "L1", source := "ICIJ",
                   summary_raw := "s1", is_canadian_data := false, pub_date := none },
         summary := "S", why := "", score := 5, location := "WORLD",
         category := "" } : ScoredItem).base.link = it.link ∧
      ({ base := { id := "i1", title := "T1", link := "L1", source := "ICIJ",
                   summary_raw := "s1", is_canadian_data := false, pub_date := none },
         summary := "S", why := "", score := 5, location := "WORLD",
         category := "" } : ScoredItem).base.source = it.source ∧
      ({ base := { id := "i1", title := "T1", link := "L1", source := "ICIJ",
                   summary_raw := "s1", is_canadian_data := false, pub_date := none },
         summary := "S", why := "", score := 5, location := "WORLD",
         category := "" } : ScoredItem).base.summary_raw = it.summary_raw ∧
      ({ base := { id := "i1", title := "T1", link := "L1", source := "ICIJ",
                   summary_raw := "s1", is_canadian_data := false, pub_date := none },
         summary := "S", why := "", score := 5, location := "WORLD",
         category := "" } : ScoredItem).base.is_canadian_data = it.is_canadian_data :=
  gemini_merge_preserves_item_fields
    (some [{ index := some 0, summary := some "S", why := none,
             score := some 5, location := some "WORLD", category := none }])
    _ _ (by decide)

theorem mem_topStoriesBase {scored : List ScoredItem} {x : ScoredItem} :
    x ∈ topStoriesBase scored ↔
      x ∈ scored ∧ 4 ≤ x.score ∧ x.base.is_canadian_data = false := by
  simp [topStoriesBase, List.mem_filter, and_assoc]

theorem mem_canadian_data {scored : List ScoredItem} {x : ScoredItem} :
    x ∈ canadian_data scored ↔
      x ∈ scored ∧ x.base.is_canadian_data = true ∧ 3 ≤ x.score := by
  simp [canadian_data, List.mem_filter, and_assoc]

theorem mem_worth_a_look {scored : List ScoredItem} {x : ScoredItem} :
    x ∈ worth_a_look scored ↔
      x ∈ scored ∧ x.score = 3 ∧ x.base.is_canadian_data = false ∧
        x.base.id ∉ top_ids scored := by
  simp [worth_a_look, List.mem_filter, and_assoc]

theorem topStoriesBase_subset {scored : List ScoredItem} {x : ScoredItem}
    (hx : x ∈ topStoriesBase scored) : x ∈ top_stories scored := by
  simp only [top_stories]
  split
  · exact List.mem_append_left _ hx
  · exact hx

theorem mem_top_stories_props {scored : List ScoredItem} {x : ScoredItem}
    (hx : x ∈ top_stories scored) :
    x ∈ scored ∧ 3 ≤ x.score ∧ x.base.is_canadian_data = false := by
  simp only [top_stories] at hx
  split at hx
  · rcases List.mem_append.mp hx with h | h
    · rcases mem_topStoriesBase.mp h with ⟨h1, h2, h3⟩
      exact ⟨h1, by omega, h3⟩
    · have h2 : x ∈ (scored.filter
          (fun i => decide (3 ≤ i.score) && !i.base.is_canadian_data &&
            !decide (i ∈ topStoriesBase scored))) :=
        (List.mem_insertionSort _).mp (List.take_subset _ _ h)
      rw [List.mem_filter] at h2
      refine ⟨h2.1, ?_, ?_⟩ <;> simp_all
  · rcases mem_topStoriesBase.mp hx with ⟨h1, h2, h3⟩
    exact ⟨h1, by omega, h3⟩

theorem top_stories_eq_base {scored : List ScoredItem}
    (h : 2 ≤ (topStoriesBase scored).length) :
    top_stories scored = topStoriesBase scored := by
  simp only [top_stories]
  rw [if_neg (by omega)]

theorem top_stories_mem_top_ids {scored : List ScoredItem} {x : ScoredItem}
    (hx : x ∈ top_stories scored) : x.base.id ∈ top_ids scored :=
  List.mem_map_of_mem (fun i => i.base.id) hx

theorem mem_page_top {scored : List ScoredItem} {x : ScoredItem} :
    x ∈ (page_sections scored).1 ↔ x ∈ top_stories scored := by
  simp [page_sections, List.mem_insertionSort]

theorem mem_page_canadian {scored : List ScoredItem} {x : ScoredItem} :
    x ∈ (page_sections scored).2.1 ↔ x ∈ canadian_data scored := by
  simp [page_sections, List.mem_insertionSort]

theorem mem_page_worth {scored : List ScoredItem} {x : ScoredItem} :
    x ∈ (page_sections scored).2.2 ↔ x ∈ worth_a_look scored := by
  simp [page_sections, List.mem_insertionSort]

/-- C2: every scored item lies in at most one of the three page sections
(top stories, Canadian data, worth a look), and membership follows the
score/origin rules: Canadian data is exactly the Canadian-sourced items of
score ≥ 3; worth a look is exactly the score-3 non-Canadian items whose id
is not among the top stories; every score-≥ 4 non-Canadian item is a top
story; every top story is non-Canadian of score ≥ 3; and when at least two
items qualify outright (no backfill), the top stories are exactly the
score-≥ 4 non-Canadian items. -/
theorem page_partition (scored : List ScoredItem) (x : ScoredItem) :
    (¬(x ∈ (page_sections scored).1 ∧ x ∈ (page_sections scored).2.1) ∧
      ¬(x ∈ (page_sections scored).1 ∧ x ∈ (page_sections scored).2.2) ∧
      ¬(x ∈ (page_sections scored).2.1 ∧ x ∈ (page_sections scored).2.2)) ∧
    (x ∈ (page_sections scored).2.1 ↔
      x ∈ scored ∧ x.base.is_canadian_data = true ∧ 3 ≤ x.score) ∧
    (x ∈ (page_sections scored).2.2 ↔
      x ∈ scored ∧ x.score = 3 ∧ x.base.is_canadian_data = false ∧
        x.base.id ∉ top_ids scored) ∧
    (x ∈ scored ∧ 4 ≤ x.score ∧ x.base.is_canadian_data = false →
      x ∈ (page_sections scored).1) ∧
    (x ∈ (page_sections scored).1 →
      x ∈ scored ∧ x.base.is_canadian_data = false ∧ 3 ≤ x.score) ∧
    (2 ≤ (topStoriesBase scored).length →
      (x ∈ (page_sections scored).1 ↔
        x ∈ scored ∧ 4 ≤ x.score ∧ x.base.is_canadian_data = false)) := by
  refine ⟨⟨?_, ?_, ?_⟩, ?_, ?_, ?_, ?_, ?_⟩
  · rintro ⟨htop, hcan⟩
    have h1 := (mem_top_stories_props (mem_page_top.mp htop)).2.2
    have h2 := (mem_canadian_data.mp (mem_page_canadian.mp hcan)).2.1
    rw [h1] at h2
    cases h2
  · rintro ⟨htop, hworth⟩
    have h1 := top_stories_mem_top_ids (mem_page_top.mp htop)
    have h2 := (mem_worth_a_look.mp (mem_page_worth.mp hworth)).2.2.2
    exact h2 h1
  · rintro ⟨hcan, hworth⟩
    have h1 := (mem_canadian_data.mp (mem_page_canadian.mp hcan)).2.1
    have h2 := (mem_worth_a_look.mp (mem_page_worth.mp hworth)).2.2.1
    rw [h2] at h1
    cases h1
  · rw [mem_page_canadian, mem_canadian_data]
  · rw [mem_page_worth, mem_worth_a_look]
  · intro hx
    exact mem_page_top.mpr (topStoriesBase_subset (mem_topStoriesBase.mpr hx))
  · intro hx
    have h := mem_top_stories_props (mem_page_top.mp hx)
    exact ⟨h.1, h.2.2, h.2.1⟩
  · intro hlen
    rw [mem_page_top, top_stories_eq_base hlen, mem_topStoriesBase]

/-- A Canadian dataset update scored 4. -/
def sampleCanada : ScoredItem :=
  { base := { id := "c1", title := "TC", link := "LC", source := "Canada Open Data",
              summary_raw := "sc", is_canadian_data := true, pub_date := none }
    summary := "SC", why := "WC", score := 4, location := "CANADA", category := "" }

/-- An international story scored 5. -/
def sampleWorld : ScoredItem :=
  { base := { id := "w1", title := "TW", link := "LW", source := "ProPublica",
              summary_raw := "sw", is_canadian_data := false, pub_date := none }
    summary := "SW", why := "WW", score := 5, location := "WORLD", category := "" }

/-- Witness for C2 on a concrete scored list: the world story lands in top
stories, the Canadian item in Canadian data, instantiating
`page_partition` and discharging its section rules concretely. -/
theorem page_partition_witness :
    sampleWorld ∈ (page_sections [sampleCanada, sampleWorld]).1 ∧
      sampleCanada ∈ (page_sections [sampleCanada, sampleWorld]).2.1 ∧
      ¬(sampleWorld ∈ (page_sections [sampleCanada, sampleWorld]).1 ∧
        sampleWorld ∈ (page_sections [sampleCanada, sampleWorld]).2.2) := by
  have hw := page_partition [sampleCanada, sampleWorld] sampleWorld
  have hc := page_partition [sampleCanada, sampleWorld] sampleCanada
  refine ⟨hw.2.2.2.1 ⟨by decide, by decide, by decide⟩,
    hc.2.1.mpr ⟨by decide, by decide, by decide⟩, hw.1.2.1⟩

/-- The invariant the classification fold maintains: `recent_items` holds
only unseen items; `backfill_items` holds only unseen items dated strictly
before the cutoff. -/
def ClassInv (cutoff : Nat) (seen : Seen) (acc : List Item × List Item) : Prop :=
  (∀ x ∈ acc.1, seenHas seen x.id = false) ∧
    ∀ x ∈ acc.2, seenHas seen x.id = false ∧ ∃ d, x.pub_date = some d ∧ d < cutoff

theorem feedStep_inv {cutoff : Nat} {seen : Seen} {sn : String}
    {acc : List Item × List Item} {e : FeedEntry} (h : ClassInv cutoff seen acc) :
    ClassInv cutoff seen (feedStep cutoff seen sn acc e) := by
  obtain ⟨h1, h2⟩ := h
  unfold feedStep
  split
  · exact ⟨h1, h2⟩
  · rename_i it hie
    split
    · exact ⟨h1, h2⟩
    · rename_i hseen
      have hunseen : seenHas seen it.id = false := by
        cases hb : seenHas seen it.id
        · rfl
        · exact absurd hb hseen
      split
      · rename_i hd
        exact ⟨fun x hx => (List.mem_append.mp hx).elim (h1 x)
            (fun hx => by rw [List.mem_singleton.mp hx]; exact hunseen), h2⟩
      · rename_i d hd
        split
        · exact ⟨fun x hx => (List.mem_append.mp hx).elim (h1 x)
              (fun hx => by rw [List.mem_singleton.mp hx]; exact hunseen), h2⟩
        · rename_i hcut
          exact ⟨h1, fun x hx => (List.mem_append.mp hx).elim (h2 x)
              (fun hx => by
                rw [List.mem_singleton.mp hx]
                exact ⟨hunseen, d, hd, by omega⟩)⟩

theorem foldl_feedStep_inv {cutoff : Nat} {seen : Seen} {sn : String}
    (es : List FeedEntry) (acc : List Item × List Item)
    (h : ClassInv cutoff seen acc) :
    ClassInv cutoff seen (es.foldl (feedStep cutoff seen sn) acc) := by
  induction es generalizing acc with
  | nil => exact h
  | cons e es ih => exact ih _ (feedStep_inv h)

theorem feedClassify_inv (cutoff : Nat) (seen : Seen) (sn : String)
    (entries : List FeedEntry) :
    ClassInv cutoff seen (feedClassify cutoff seen sn entries) :=
  foldl_feedStep_inv _ _ ⟨fun _ hx => absurd hx (List.not_mem_nil _),
    fun _ hx => absurd hx (List.not_mem_nil _)⟩

theorem rssFeedStep_inv {fetchR : FetchRss} {cutoff : Nat} {seen : Seen}
    {acc : List Item × List Item} {src : String × String}
    (h : ClassInv cutoff seen acc) :
    ClassInv cutoff seen (rssFeedStep fetchR cutoff seen acc src) := by
  obtain ⟨h1, h2⟩ := h
  unfold rssFeedStep
  cases fetchR src.2 with
  | error _ => exact ⟨h1, h2⟩
  | ok entries =>
    have hf := feedClassify_inv cutoff seen src.1 entries
    refine ⟨?_, ?_⟩ <;> intro x hx <;> rcases List.mem_append.mp hx with hx | hx
    · exact h1 x hx
    · exact hf.1 x hx
    · exact h2 x hx
    · exact hf.2 x hx

theorem foldl_rssFeedStep_inv {fetchR : FetchRss} {cutoff : Nat} {seen : Seen}
    (feeds : List (String × String)) (acc : List Item × List Item)
    (h : ClassInv cutoff seen acc) :
    ClassInv cutoff seen (feeds.foldl (rssFeedStep fetchR cutoff seen) acc) := by
  induction feeds generalizing acc with
  | nil => exact h
  | cons f fs ih => exact ih _ (rssFeedStep_inv h)

theorem rssClassify_inv (fetchR : FetchRss) (cutoff : Nat) (seen : Seen) :
    ClassInv cutoff seen (rssClassify fetchR cutoff seen) :=
  foldl_rssFeedStep_inv _ _ ⟨fun _ hx => absurd hx (List.not_mem_nil _),
    fun _ hx => absurd hx (List.not_mem_nil _)⟩

/-- C5: the backfill policy of the feed fetcher.  If at least
`MIN_RSS_ITEMS` (10) within-window unseen items were found, the result is
exactly those items and no out-of-window item is added.  Otherwise the
result starts with the within-window items, has as many items as the
threshold allows (all of them once the pool is exhausted:
`min 10 (recent + pool)`), and the appended part consists of out-of-window
unseen items from the pool, listed most recent first (descending by
publish date, missing dates — key 0 — last), maximal in the pool: every
appended item's key is at least the key of every pool item left behind. -/
theorem rss_backfill_policy (fetchR : FetchRss) (cutoff : Nat) (seen : Seen) :
    (MIN_RSS_ITEMS ≤ (rssClassify fetchR cutoff seen).1.length →
      fetch_rss_items fetchR cutoff seen = (rssClassify fetchR cutoff seen).1) ∧
    ((rssClassify fetchR cutoff seen).1.length < MIN_RSS_ITEMS →
      (fetch_rss_items fetchR cutoff seen).take
          (rssClassify fetchR cutoff seen).1.length =
        (rssClassify fetchR cutoff seen).1 ∧
      (fetch_rss_items fetchR cutoff seen).length =
        min MIN_RSS_ITEMS ((rssClassify fetchR cutoff seen).1.length +
          (rssClassify fetchR cutoff seen).2.length) ∧
      (∀ x ∈ (fetch_rss_items fetchR cutoff seen).drop
          (rssClassify fetchR cutoff seen).1.length,
        x ∈ (rssClassify fetchR cutoff seen).2 ∧ seenHas seen x.id = false ∧
          ∃ d, x.pub_date = some d ∧ d < cutoff) ∧
      ((fetch_rss_items fetchR cutoff seen).drop
          (rssClassify fetchR cutoff seen).1.length).Sorted newerFirst ∧
      (∀ x ∈ (fetch_rss_items fetchR cutoff seen).drop
          (rssClassify fetchR cutoff seen).1.length,
        ∀ y ∈ ((rssClassify fetchR cutoff seen).2.insertionSort newerFirst).drop
            (MIN_RSS_ITEMS - (rssClassify fetchR cutoff seen).1.length),
          backfillKey y ≤ backfillKey x)) := by
  constructor
  · intro h
    unfold fetch_rss_items
    rw [if_neg (by omega)]
  · intro h
    have hres : fetch_rss_items fetchR cutoff seen =
        (rssClassify fetchR cutoff seen).1 ++
          ((rssClassify fetchR cutoff seen).2.insertionSort newerFirst).take
            (MIN_RSS_ITEMS - (rssClassify fetchR cutoff seen).1.length) := by
      unfold fetch_rss_items
      rw [if_pos h]
    have hsorted : ((rssClassify fetchR cutoff seen).2.insertionSort
        newerFirst).Sorted newerFirst :=
      List.sorted_insertionSort newerFirst (rssClassify fetchR cutoff seen).2
    refine ⟨?_, ?_, ?_, ?_, ?_⟩
    · rw [hres, List.take_left]
    · rw [hres, List.length_append, List.length_take, List.length_insertionSort]
      omega
    · intro x hx
      rw [hres, List.drop_left] at hx
      have hx2 : x ∈ (rssClassify fetchR cutoff seen).2 :=
        (List.mem_insertionSort _).mp (List.take_subset _ _ hx)
      exact ⟨hx2, (rssClassify_inv fetchR cutoff seen).2 x hx2⟩
    · rw [hres, List.drop_left]
      exact List.Pairwise.sublist (List.take_sublist _ _) hsorted
    · intro x hx y hy
      rw [hres, List.drop_left] at hx
      have hall : List.Pairwise newerFirst
          ((((rssClassify fetchR cutoff seen).2.insertionSort newerFirst).take
              (MIN_RSS_ITEMS - (rssClassify fetchR cutoff seen).1.length)) ++
            (((rssClassify fetchR cutoff seen).2.insertionSort newerFirst).drop
              (MIN_RSS_ITEMS - (rssClassify fetchR cutoff seen).1.length))) := by
        rw [List.take_append_drop]
        exact hsorted
      exact (List.pairwise_append.mp hall).2.2 x hx y hy

/-- A concrete feed world for the C5 witness: one feed answers with one
within-window entry and two older ones, every other source is empty. -/
def wBackfill : FetchRss := fun url =>
  if url = "https://www.icij.org/feed/" then
    .ok [{ title := "A", link := "la", summaryText := "sa", pub_date := some 150 },
         { title := "B", link := "lb", summaryText := "sb", pub_date := some 50 },
         { title := "C", link := "lc", summaryText := "sc", pub_date := some 70 }]
  else .ok []

/-- Witness for C5: with one within-window item and a pool of two, the
result is all three items (`min 10 3`), instantiating
`rss_backfill_policy` and discharging its threshold hypothesis. -/
theorem rss_backfill_policy_witness :
    (rssClassify wBackfill 100 []).1.length < MIN_RSS_ITEMS ∧
      (fetch_rss_items wBackfill 100 []).length =
        min MIN_RSS_ITEMS ((rssClassify wBackfill 100 []).1.length +
          (rssClassify wBackfill 100 []).2.length) :=
  ⟨by decide, ((rss_backfill_policy wBackfill 100 []).2 (by decide)).2.1⟩


theorem mem_fetch_rss_items {fetchR : FetchRss} {cutoff : Nat} {seen : Seen}
    {x : Item} (hx : x ∈ fetch_rss_items fetchR cutoff seen) :
    x ∈ (rssClassify fetchR cutoff seen).1 ∨ x ∈ (rssClassify fetchR cutoff seen).2 := by
  simp only [fetch_rss_items] at hx
  split at hx
  · rcases List.mem_append.mp hx with h | h
    · exact Or.inl h
    · exact Or.inr ((List.mem_insertionSort _).mp (List.take_subset _ _ h))
  · exact Or.inl hx

/-- The invariant of the dataset fold: only unseen, Canadian-flagged
items are accumulated. -/
def CkanInv (seen : Seen) (acc : List Item) : Prop :=
  ∀ x ∈ acc, seenHas seen x.id = false ∧ x.is_canadian_data = true

theorem ckanStep_inv {n b : String} {seen : Seen} {acc : List Item}
    {pkg : CkanPackage} (h : CkanInv seen acc) :
    CkanInv seen (ckanStep n b seen acc pkg) := by
  intro x hx
  simp only [ckanStep] at hx
  split at hx
  · exact h x hx
  · rename_i hseen
    rcases List.mem_append.mp hx with hx | hx
    · exact h x hx
    · rw [List.mem_singleton.mp hx]
      refine ⟨?_, rfl⟩
      cases hb : seenHas seen (ckanItem n b pkg).id
      · rfl
      · exact absurd hb hseen

theorem foldl_ckanStep_inv {n b : String} {seen : Seen}
    (pkgs : List CkanPackage) (acc : List Item) (h : CkanInv seen acc) :
    CkanInv seen (pkgs.foldl (ckanStep n b seen) acc) := by
  induction pkgs generalizing acc with
  | nil => exact h
  | cons p ps ih => exact ih _ (ckanStep_inv h)

theorem ckanCatStep_inv {fetchC : FetchCkan} {seen : Seen} {acc : List Item}
    {cfg : CkanConfig} (h : CkanInv seen acc) :
    CkanInv seen (ckanCatStep fetchC seen acc cfg) := by
  unfold ckanCatStep
  split
  · exact h
  · exact foldl_ckanStep_inv _ _ h

theorem fetch_ckan_inv (fetchC : FetchCkan) (seen : Seen) :
    CkanInv seen (fetch_ckan_updates fetchC seen) := by
  unfold fetch_ckan_updates
  have h0 : CkanInv seen ([] : List Item) := fun _ hx => absurd hx (List.not_mem_nil _)
  generalize ([] : List Item) = acc at h0 ⊢
  induction CKAN_APIS generalizing acc with
  | nil => exact h0
  | cons c cs ih => exact ih _ (ckanCatStep_inv h0)

/-- C6: fetching is a pure function of the seen set and the feed/catalog
content — two runs with equal inputs produce identical item-id lists —
and no item whose id is recorded in the seen set ever appears in the
output of the feed fetcher or the dataset fetcher. -/
theorem fetch_deterministic_and_dedup
    (fetchR fetchR' : FetchRss) (fetchC fetchC' : FetchCkan)
    (cutoff cutoff' : Nat) (seen seen' : Seen)
    (hR : fetchR = fetchR') (hC : fetchC = fetchC')
    (hcut : cutoff = cutoff') (hseen : seen = seen') :
    ((fetch_rss_feeds fetchR cutoff seen).map (fun i => i.id) =
      (fetch_rss_feeds fetchR' cutoff' seen').map (fun i => i.id)) ∧
    ((fetch_ckan_updates fetchC seen).map (fun i => i.id) =
      (fetch_ckan_updates fetchC' seen').map (fun i => i.id)) ∧
    (∀ x ∈ fetch_rss_feeds fetchR cutoff seen, seenHas seen x.id = false) ∧
    (∀ x ∈ fetch_ckan_updates fetchC seen, seenHas seen x.id = false) := by
  subst hR
  subst hC
  subst hcut
  subst hseen
  refine ⟨rfl, rfl, ?_, fun x hx => (fetch_ckan_inv fetchC seen x hx).1⟩
  intro x hx
  rcases List.mem_map.mp hx with ⟨y, hy, rfl⟩
  show seenHas seen y.id = false
  rcases mem_fetch_rss_items hy with h | h
  · exact (rssClassify_inv fetchR cutoff seen).1 y h
  · exact ((rssClassify_inv fetchR cutoff seen).2 y h).1

/-- The feed world of the C6 witness: the only offered entry is already in
the seen store. -/
def wFetch : FetchRss := fun url =>
  if url = "https://pudding.cool/feed/index.xml" then
    .ok [{ title := "A", link := "la", summaryText := "s", pub_date := some 150 }]
  else .ok []

/-- The seen store of the C6 witness: it already holds the id of the one
offered entry. -/
def wSeen : Seen := [(item_id "A" "la", "2026-10-11T00:00:00+00:00")]

/-- Witness for C6: two runs on the same inputs give the same ids, and the
already-seen entry is excluded, leaving the fetch empty. -/
theorem fetch_deterministic_and_dedup_witness :
    ((fetch_rss_feeds wFetch 100 wSeen).map (fun i => i.id) =
      (fetch_rss_feeds wFetch 100 wSeen).map (fun i => i.id)) ∧
      fetch_rss_feeds wFetch 100 wSeen = [] := by
  have h := fetch_deterministic_and_dedup wFetch wFetch
    (fun _ => Except.ok []) (fun _ => Except.ok []) 100 100 wSeen wSeen rfl rfl rfl rfl
  exact ⟨h.1, by decide⟩

/-- C9: every item the dataset fetcher produces carries
`is_canadian_data = true`, and a Canadian-flagged scored item can never be
a member of the top stories or worth-a-look sections — dataset records can
appear only in the Canadian data section. -/
theorem ckan_items_only_canadian_section :
    (∀ (fetchC : FetchCkan) (seen : Seen), ∀ x ∈ fetch_ckan_updates fetchC seen,
      x.is_canadian_data = true) ∧
    (∀ (scored : List ScoredItem) (y : ScoredItem), y.base.is_canadian_data = true →
      y ∉ (page_sections scored).1 ∧ y ∉ (page_sections scored).2.2) := by
  constructor
  · intro fetchC seen x hx
    exact (fetch_ckan_inv fetchC seen x hx).2
  · intro scored y hy
    constructor
    · intro hmem
      have h := (mem_top_stories_props (mem_page_top.mp hmem)).2.2
      rw [hy] at h
      cases h
    · intro hmem
      have h := (mem_worth_a_look.mp (mem_page_worth.mp hmem)).2.2.1
      rw [hy] at h
      cases h

/-- The catalog world of the C9 witness: Toronto answers with one
package. -/
def wCkan : FetchCkan := fun url =>
  if url = "https://ckan0.cf.opendata.inter.prod-toronto.ca/api/3/action/package_search" then
    .ok [{ name := some "parks", pkg_id := none, title := some (.plain "Parks"),
           excerpt := none, notes := none }]
  else .ok []

/-- A scored dataset record (Canadian, score 5). -/
def sampleCkanScored : ScoredItem :=
  { base := { id := "d1", title := "TD", link := "LD", source := "Toronto Open Data",
              summary_raw := "sd", is_canadian_data := true, pub_date := none }
    summary := "SD", why := "WD", score := 5, location := "CANADA", category := "" }

/-- Witness for C9: the one fetched Toronto package is Canadian-flagged,
and a concrete Canadian scored item is in neither top stories nor worth a
look. -/
theorem ckan_items_only_canadian_section_witness :
    (ckanItem "Toronto Open Data" "https://open.toronto.ca/dataset"
        { name := some "parks", pkg_id := none, title := some (.plain "Parks"),
          excerpt := none, notes := none }).is_canadian_data = true ∧
      sampleCkanScored ∉ (page_sections [sampleCkanScored]).1 ∧
      sampleCkanScored ∉ (page_sections [sampleCkanScored]).2.2 := by
  refine ⟨ckan_items_only_canadian_section.1 wCkan [] _ (by decide), ?_, ?_⟩
  · exact (ckan_items_only_canadian_section.2 [sampleCkanScored]
      sampleCkanScored (by decide)).1
  · exact (ckan_items_only_canadian_section.2 [sampleCkanScored]
      sampleCkanScored (by decide)).2

/-- The world of the C1 counterexample: no credential anywhere, one feed
yields one fresh item, everything else is empty. -/
def wNoKey : World :=
  { keyFile := none
    envKey := none
    fetchR := fun url =>
      if url = "https://pudding.cool/feed/index.xml" then
        .ok [{ title := "T", link := "L", summaryText := "s", pub_date := some 1000 }]
      else .ok []
    fetchC := fun _ => .ok []
    seen0 := []
    cutoff := 0 }

/-- Counterexample to C1 as stated: with no credential available the run
does fail with the fatal configuration error, but not before network
activity — every feed and catalog request has already been issued when
`setup_gemini` raises. -/
theorem main_no_credential_fails_after_network :
    resolved_api_key wNoKey.keyFile wNoKey.envKey = none ∧
      (mainTrace wNoKey).any Event.isFatal = true ∧
      failsBeforeNet (mainTrace wNoKey) = false := by
  refine ⟨rfl, ?_, ?_⟩ <;> decide

/-- C1 amended: the run always issues every feed and catalog request
first; if no API credential is available and the fetch found at least one
new item, the run then fails with the fatal configuration error before
any ranking-service call, and neither the page write nor the state save
happens. -/
theorem main_no_credential_aborts_before_ranking (w : World)
    (hkey : resolved_api_key w.keyFile w.envKey = none)
    (hitems : (mainItems w).isEmpty = false) :
    mainTrace w = fetchEvents ++ [Event.fatalError missingKeyMsg] ∧
      (∀ e ∈ fetchEvents, e.isNet = true) ∧
      Event.geminiCall ∉ mainTrace w ∧
      Event.writePage ∉ mainTrace w ∧
      Event.stateSaved ∉ mainTrace w := by
  have htrace : mainTrace w = fetchEvents ++ [Event.fatalError missingKeyMsg] := by
    unfold mainTrace
    rw [hitems]
    simp only [Bool.false_eq_true, if_false]
    unfold setup_gemini
    rw [hkey]
  refine ⟨htrace, by decide, ?_, ?_, ?_⟩ <;> rw [htrace] <;> decide

/-- Witness for the amended C1 at the concrete no-credential world: the
trace is the twelve fetch requests followed by the fatal error, and no
ranking call, page write, or state save occurs. -/
theorem main_no_credential_aborts_before_ranking_witness :
    mainTrace wNoKey = fetchEvents ++ [Event.fatalError missingKeyMsg] ∧
      Event.geminiCall ∉ mainTrace wNoKey ∧
      Event.writePage ∉ mainTrace wNoKey ∧
      Event.stateSaved ∉ mainTrace wNoKey := by
  have h := main_no_credential_aborts_before_ranking wNoKey rfl (by decide)
  exact ⟨h.1, h.2.2.1, h.2.2.2.1, h.2.2.2.2⟩

end DataScout
